import Mathlib

/-!
Verification of the command-dispatch core of `rmi_driver` (commands.cpp):
the `Command` wire model, the `CommandHandler` match predicate
(`operator==`), `CommandRegister::findHandler`, and reply checking.

Modelling conventions:
* `std::string` is `String`; `std::vector<float>` is `List ℚ` (matching only
  performs exact equality comparison on these sequences, never arithmetic,
  so an exact-equality scalar type is faithful; non-finite floats make the
  sample unmatchable and are outside every claim considered here).
* A null `CommandPtr` is `none`; fallible/undefined operations return `Option`.
* `util::usedAndNotEqual` and the class headers are not part of the provided
  sources; they are modelled from the specification and marked as such.
-/

namespace rmi_driver

/-- The external RMI command message schema (`robot_movement_interface::Command`),
with the optional textual tags, optional numeric sequences, and the integer
`command_id`, as enumerated in the specification's data model. -/
structure RMICommand where
  command_type : String
  pose_reference : String
  pose_type : String
  pose : List ℚ
  velocity_type : String
  velocity : List ℚ
  acceleration_type : String
  acceleration : List ℚ
  blending_type : String
  blending : List ℚ
  additional_parameters : List ℚ
  command_id : Int
deriving DecidableEq

/-- Classification tag of a materialized `Command` (motion vs informational). -/
inductive CommandType where
  | Motion : CommandType
  | Informational : CommandType
deriving DecidableEq

/-- The materialized `Command`: classification tag, command id, and the ordered
key/value entry list `full_command_` (names follow the C++ data members). -/
structure Command where
  type_ : CommandType
  command_id_ : Int
  full_command_ : List (String × String)
deriving DecidableEq

/-- Modelled from the spec: `util::usedAndNotEqual` for textual tags
(util.h/util.cpp are not under the provided sources). True iff the sample
field is present (non-empty) and the two values differ byte-for-byte. -/
def usedAndNotEqualStr (sample msg : String) : Bool :=
  decide (sample ≠ "") && decide (sample ≠ msg)

/-- Modelled from the spec: `util::usedAndNotEqual` for numeric sequences.
True iff the sample sequence is present (non-empty) and the two sequences
differ (different length or different values). -/
def usedAndNotEqualVec (sample msg : List ℚ) : Bool :=
  decide (sample ≠ ([] : List ℚ)) && decide (sample ≠ msg)

/-- `Command::toString(bool)`: stream each entry as `KEY` (plus
`" : " VALUE` when the value is non-empty) followed by `";"`, then a final
`"\n"` when `append_newline` is set. -/
def Command.toString (c : Command) (append_newline : Bool) : String :=
  (c.full_command_.foldl
    (fun oss cmd =>
      oss ++ cmd.fst ++ (if cmd.snd.length > 0 then (" : ") ++ cmd.snd else "") ++ (";"))
    "") ++ (if append_newline then ("\n") else "")

/-- `Command::checkResponse`: accept any reply except the exact literal
`error`. -/
def Command.checkResponse (response : String) : Bool :=
  if response ≠ ("error" : String) then true else false

/-- `Command::makeCommand(type, command, params, erase_params)`: set the tag;
optionally clear the entries; then overwrite entry 0 when one exists, else
append a first entry. -/
def Command.makeCommand (c : Command) (type : CommandType) (command params : String)
    (erase_params : Bool) : Command :=
  let fc0 := if erase_params then [] else c.full_command_
  let fc1 := if fc0.length > 0 then fc0.set 0 (command, params)
             else fc0 ++ [(command, params)]
  { c with type_ := type, full_command_ := fc1 }

/-- `Command::addParam(param, param_vals)`: the source writes
`full_command_[1] = pair` when the list is EMPTY (an out-of-bounds
`std::vector::operator[]` access, undefined behavior, modelled as `none`)
and appends otherwise. -/
def Command.addParam (c : Command) (param param_vals : String) : Option Command :=
  if c.full_command_.isEmpty then
    none
  else
    some { c with full_command_ := c.full_command_ ++ [(param, param_vals)] }

/-- Modelled from the spec: `addParam` as specified — append `(key, value)`
to the entries unconditionally (the specification resolves the source's
empty-case branch, which it calls a fault, to an unconditional append). -/
def Command.addParamSpec (c : Command) (param param_vals : String) : Command :=
  { c with full_command_ := c.full_command_ ++ [(param, param_vals)] }

/-- `Command::getCommand`: the first entry's key, or `""` when there are no
entries (`at(0)` with the `out_of_range` handler). -/
def Command.getCommand (c : Command) : String :=
  match c.full_command_ with
  | [] => ""
  | e :: _ => e.fst

/-- `CommandHandler`: a sample message used as match pattern plus the
optional transformation function (`process_func_`, an `std::function` that
may be unset; its result `CommandPtr` may itself be null). -/
structure CommandHandler where
  sample_command_ : RMICommand
  process_func_ : Option (RMICommand → Option Command)

/-- `CommandHandler::operator==(const robot_movement_interface::Command&)`:
early-return false on the first used-and-not-equal field among
command_type, pose_reference, pose_type, pose and velocity_type; otherwise
match.  (The source contains no check of the `velocity` sequence.) -/
def CommandHandler.matches (h : CommandHandler) (msg : RMICommand) : Bool :=
  if usedAndNotEqualStr h.sample_command_.command_type msg.command_type then false
  else if usedAndNotEqualStr h.sample_command_.pose_reference msg.pose_reference then false
  else if usedAndNotEqualStr h.sample_command_.pose_type msg.pose_type then false
  else if usedAndNotEqualVec h.sample_command_.pose msg.pose then false
  else if usedAndNotEqualStr h.sample_command_.velocity_type msg.velocity_type then false
  else true

/-- Modelled from the spec: the match predicate as the specification words it
— a conjunction of `not usedAndNotEqual` over command_type, pose_reference,
pose_type, pose, velocity_type AND velocity.  Kept separate from
`CommandHandler.matches` (the source predicate) for comparison. -/
def matchesSpec (sample msg : RMICommand) : Bool :=
  !(usedAndNotEqualStr sample.command_type msg.command_type) &&
  !(usedAndNotEqualStr sample.pose_reference msg.pose_reference) &&
  !(usedAndNotEqualStr sample.pose_type msg.pose_type) &&
  !(usedAndNotEqualVec sample.pose msg.pose) &&
  !(usedAndNotEqualStr sample.velocity_type msg.velocity_type) &&
  !(usedAndNotEqualVec sample.velocity msg.velocity)

/-- `CommandHandler::processMsg`: when `process_func_` is unset, log a
programmer-error diagnostic (`ROS_ERROR_STREAM`, modelled as the Boolean
first component) and return a null `CommandPtr`; otherwise invoke the
function.  Total: no exception is thrown. -/
def CommandHandler.processMsg (h : CommandHandler) (cmd_msg : RMICommand) :
    Bool × Option Command :=
  match h.process_func_ with
  | none => (true, none)
  | some f => (false, f cmd_msg)

/-- `CommandRegister`: the ordered handler sequence (`handlers()`), in
registration order. -/
structure CommandRegister where
  handlers : List CommandHandler

/-- `CommandRegister::findHandler`: `std::find_if` over the handler sequence
with the handler's `operator==`; the first match, or null (`none`). -/
def CommandRegister.findHandler (r : CommandRegister) (msg_cmd : RMICommand) :
    Option CommandHandler :=
  r.handlers.find? (fun p => p.matches msg_cmd)

/-- The all-absent RMI message: every tag empty, every sequence empty. -/
def emptyRMI : RMICommand :=
  { command_type := "", pose_reference := "", pose_type := "", pose := [],
    velocity_type := "", velocity := [], acceleration_type := "", acceleration := [],
    blending_type := "", blending := [], additional_parameters := [], command_id := 0 }

/-- Sample populating only `velocity` (a field the source predicate never
compares). -/
def velSample : RMICommand := { emptyRMI with velocity := [1] }

/-- Message whose `velocity` differs from `velSample`'s. -/
def velMsg : RMICommand := { emptyRMI with velocity := [2], command_id := 3 }

/-- A `Command` with no entries. -/
def emptyCmd : Command :=
  { type_ := CommandType.Motion, command_id_ := 0, full_command_ := [] }

/-- A `Command` with two entries, for the frame-property check. -/
def cmd2 : Command :=
  { type_ := CommandType.Motion, command_id_ := 7,
    full_command_ := [(("ptp"), ("")), (("velocity"), ("10"))] }

/-- Sample populating only `command_type := "SETTING"`. -/
def sampleSetting : RMICommand := { emptyRMI with command_type := "SETTING" }

/-- Sample populating only `command_type := "PTP"`. -/
def samplePTP : RMICommand := { emptyRMI with command_type := "PTP" }

/-- Sample populating `command_type := "PTP"` and `pose_type := "JOINTS"`. -/
def samplePTPJoints : RMICommand :=
  { emptyRMI with command_type := "PTP", pose_type := "JOINTS" }

/-- Handler matching `command_type = "SETTING"`, transform unset. -/
def hSetting : CommandHandler := { sample_command_ := sampleSetting, process_func_ := none }

/-- Catch-all handler: entirely empty sample, transform unset. -/
def hCatchAll : CommandHandler := { sample_command_ := emptyRMI, process_func_ := none }

/-- Handler matching `command_type = "PTP"`, transform unset. -/
def hPTPonly : CommandHandler := { sample_command_ := samplePTP, process_func_ := none }

/-- A concrete `"SETTING"` message. -/
def msgSetting : RMICommand := { emptyRMI with command_type := "SETTING", command_id := 5 }

/-- A concrete PTP/JOINTS message with a pose. -/
def msgS1 : RMICommand :=
  { emptyRMI with
    command_type := "PTP", pose_type := "JOINTS",
    pose := [0, 1, -2, 0, 0, 0], command_id := 7 }

/-- `msgS1` with only `command_id` changed. -/
def msgS1id9 : RMICommand := { msgS1 with command_id := 9 }

/-- Sample `A` populates every field sample `B` populates, with identical
values there (presence: non-empty tag / non-empty sequence). -/
def populatesAgrees (A B : RMICommand) : Bool :=
  decide ((B.command_type ≠ "" → A.command_type = B.command_type) ∧
    (B.pose_reference ≠ "" → A.pose_reference = B.pose_reference) ∧
    (B.pose_type ≠ "" → A.pose_type = B.pose_type) ∧
    (B.pose ≠ [] → A.pose = B.pose) ∧
    (B.velocity_type ≠ "" → A.velocity_type = B.velocity_type) ∧
    (B.velocity ≠ [] → A.velocity = B.velocity) ∧
    (B.acceleration_type ≠ "" → A.acceleration_type = B.acceleration_type) ∧
    (B.acceleration ≠ [] → A.acceleration = B.acceleration) ∧
    (B.blending_type ≠ "" → A.blending_type = B.blending_type) ∧
    (B.blending ≠ [] → A.blending = B.blending) ∧
    (B.additional_parameters ≠ [] → A.additional_parameters = B.additional_parameters))

/-- Sample `A` populates at least one field sample `B` leaves absent
(together with `populatesAgrees`, a strict superset of populated fields). -/
def populatesStrictlyMore (A B : RMICommand) : Bool :=
  decide ((A.command_type ≠ "" ∧ B.command_type = "") ∨
    (A.pose_reference ≠ "" ∧ B.pose_reference = "") ∨
    (A.pose_type ≠ "" ∧ B.pose_type = "") ∨
    (A.pose ≠ [] ∧ B.pose = []) ∨
    (A.velocity_type ≠ "" ∧ B.velocity_type = "") ∨
    (A.velocity ≠ [] ∧ B.velocity = []) ∨
    (A.acceleration_type ≠ "" ∧ B.acceleration_type = "") ∨
    (A.acceleration ≠ [] ∧ B.acceleration = []) ∨
    (A.blending_type ≠ "" ∧ B.blending_type = "") ∨
    (A.blending ≠ [] ∧ B.blending = []) ∨
    (A.additional_parameters ≠ [] ∧ B.additional_parameters = []))

/-- The early-return chain of `CommandHandler::operator==` is equivalent to
the conjunction of the five checks it performs (velocity absent from the
list, as in the source). -/
theorem matches_eq_true_iff (h : CommandHandler) (m : RMICommand) :
    h.matches m = true ↔
      (usedAndNotEqualStr h.sample_command_.command_type m.command_type = false ∧
       usedAndNotEqualStr h.sample_command_.pose_reference m.pose_reference = false ∧
       usedAndNotEqualStr h.sample_command_.pose_type m.pose_type = false ∧
       usedAndNotEqualVec h.sample_command_.pose m.pose = false ∧
       usedAndNotEqualStr h.sample_command_.velocity_type m.velocity_type = false) := by
  unfold CommandHandler.matches
  repeat' split
  all_goals simp_all

/-- Claim C1: the source's match predicate never compares the `velocity`
sequence: a handler whose sample populates only `velocity := [1]` matches a
message with `velocity = [2]`, while the specified conjunction over all six
comparable fields (including velocity) rejects that message. -/
theorem velocity_not_compared :
    (CommandHandler.mk velSample none).matches velMsg = true ∧
    matchesSpec velSample velMsg = false := by
  constructor <;> rfl

/-- Claim C2: at the failing input (a `Command` with no entries) the source's
`addParam` performs `full_command_[1] = pair` on an empty vector — an
out-of-bounds write, modelled as `none` — whereas the specified unconditional
append yields the singleton entry list. -/
theorem addParam_empty_out_of_bounds :
    Command.addParam emptyCmd ("velocity") ("10") = none ∧
    (Command.addParamSpec emptyCmd ("velocity") ("10")).full_command_ =
      [(("velocity"), ("10"))] := by
  constructor <;> rfl

/-- Claim C4: `checkResponse` returns false iff the reply is byte-for-byte
the literal `error`; in particular the empty reply and `"error "` with a
trailing space are accepted. -/
theorem checkResponse_false_iff (s : String) :
    (Command.checkResponse s = false ↔ s = ("error" : String)) ∧
    Command.checkResponse ("") = true ∧
    Command.checkResponse ("error ") = true := by
  refine ⟨?_, rfl, rfl⟩
  unfold Command.checkResponse
  by_cases h : s = ("error" : String) <;> simp [h]

/-- Claim C7: wildcard law — a handler whose sample leaves every field
absent (empty strings, empty sequences) matches every message, whatever its
transform function. -/
theorem wildcard_matches (f : Option (RMICommand → Option Command)) (m : RMICommand) :
    (CommandHandler.mk emptyRMI f).matches m = true := by
  simp [CommandHandler.matches, emptyRMI, usedAndNotEqualStr, usedAndNotEqualVec]

/-- A string has positive length iff it is not the empty string. -/
theorem string_len_pos (s : String) : s.length > 0 ↔ s ≠ "" := by
  cases s with
  | mk data => cases data <;> simp [String.length, String.ext_iff]

/-- The streaming left fold of `Command::toString` equals the per-entry
right-fold rendering, for any initial accumulator. -/
theorem toString_fold_acc (l : List (String × String)) (s : String) :
    l.foldl (fun oss cmd =>
      oss ++ cmd.fst ++ (if cmd.snd.length > 0 then (" : ") ++ cmd.snd else "") ++ (";")) s
    = s ++ l.foldr (fun e r =>
      e.fst ++ (if e.snd = "" then "" else (" : ") ++ e.snd) ++ (";") ++ r) "" := by
  induction l generalizing s with
  | nil => simp
  | cons x xs ih =>
    simp only [List.foldl_cons, List.foldr_cons, ih]
    rcases eq_or_ne x.snd "" with hx | hx
    · simp [hx, String.append_assoc]
    · rw [if_pos ((string_len_pos x.snd).mpr hx), if_neg hx]
      simp [String.append_assoc]

/-- Claim C5: `toString` renders the entries in insertion order, each entry
as its key alone when its value is empty and otherwise as `key ++ " : " ++
value`, with `";"` after every entry, followed by one `"\n"` exactly when
`append_newline` holds; zero entries render as `""` or `"\n"`. -/
theorem toString_spec (c : Command) (b : Bool) :
    Command.toString c b =
      (c.full_command_.foldr (fun e r =>
        e.fst ++ (if e.snd = "" then ("") else (" : ") ++ e.snd) ++ (";") ++ r) (""))
      ++ (if b then ("\n") else ("")) ∧
    Command.toString { c with full_command_ := [] } b = (if b then ("\n") else ("")) := by
  constructor
  · unfold Command.toString
    rw [toString_fold_acc]
    simp
  · unfold Command.toString
    simp

/-- Claim C3: `findHandler` is a linear scan in registration order — it
returns `none` iff no registered handler matches, and returns the
earliest-registered matching handler (everything before it non-matching,
anything after it arbitrary, including further matches). -/
theorem findHandler_first_match (msg : RMICommand) :
    (∀ r : CommandRegister,
      r.findHandler msg = none ↔ ∀ g ∈ r.handlers, g.matches msg = false) ∧
    (∀ (pre post : List CommandHandler) (h : CommandHandler),
      (∀ g ∈ pre, g.matches msg = false) → h.matches msg = true →
      CommandRegister.findHandler (CommandRegister.mk (pre ++ h :: post)) msg = some h) := by
  constructor
  · intro r
    unfold CommandRegister.findHandler
    rw [List.find?_eq_none]
    simp
  · intro pre post h
    induction pre with
    | nil =>
      intro _ hh
      simp [CommandRegister.findHandler, hh]
    | cons g gs ih =>
      intro hpre hh
      have hg : ¬ (g.matches msg = true) := by
        rw [hpre g (List.mem_cons_self g gs)]
        simp
      simp only [CommandRegister.findHandler] at ih ⊢
      rw [List.cons_append,
        List.find?_cons_of_neg (p := fun p => p.matches msg) (a := g) (gs ++ h :: post) hg]
      exact ih (fun x hx => hpre x (List.mem_cons_of_mem g hx)) hh

/-- Witness for claim C3: with the `"SETTING"` handler registered before the
catch-all, a `"SETTING"` message finds the `"SETTING"` handler; a registry
holding only the `"PTP"` handler finds nothing for that message. -/
theorem findHandler_first_match_w :
    CommandRegister.findHandler (CommandRegister.mk [hSetting, hCatchAll]) msgSetting
      = some hSetting ∧
    CommandRegister.findHandler (CommandRegister.mk [hPTPonly]) msgSetting = none := by
  constructor
  · exact (findHandler_first_match msgSetting).2 [] [hCatchAll] hSetting (by simp) (by decide)
  · exact ((findHandler_first_match msgSetting).1 (CommandRegister.mk [hPTPonly])).mpr
      (by decide)

/-- Claim C6: `processMsg` applies the transform when it is set; when the
transform is absent it reports the programmer-error diagnostic and returns a
null Command — and, being a total function, never raises a fatal error. -/
theorem processMsg_contract (h : CommandHandler) (m : RMICommand) :
    (∀ f, h.process_func_ = some f → h.processMsg m = (false, f m)) ∧
    (h.process_func_ = none → h.processMsg m = (true, none)) := by
  constructor
  · intro f hf
    simp [CommandHandler.processMsg, hf]
  · intro hn
    simp [CommandHandler.processMsg, hn]

/-- Witness for claim C6: the catch-all fixture has no transform, and
`processMsg` on it yields the diagnostic flag and a null Command. -/
theorem processMsg_contract_w :
    hCatchAll.process_func_ = none ∧ hCatchAll.processMsg msgSetting = (true, none) :=
  ⟨rfl, (processMsg_contract hCatchAll msgSetting).2 rfl⟩

/-- If sample value `a` agrees with `b` wherever `b` is present, a message
passing the used-and-not-equal check against `a` also passes it against `b`
(string fields). -/
theorem usedAndNotEqualStr_mono {a b m : String} (hab : b ≠ "" → a = b)
    (h : usedAndNotEqualStr a m = false) : usedAndNotEqualStr b m = false := by
  rcases eq_or_ne b "" with hb | hb
  · simp [usedAndNotEqualStr, hb]
  · rw [← hab hb]
    exact h

/-- Sequence-field analogue of `usedAndNotEqualStr_mono`. -/
theorem usedAndNotEqualVec_mono {a b m : List ℚ} (hab : b ≠ [] → a = b)
    (h : usedAndNotEqualVec a m = false) : usedAndNotEqualVec b m = false := by
  rcases eq_or_ne b ([] : List ℚ) with hb | hb
  · simp [usedAndNotEqualVec, hb]
  · rw [← hab hb]
    exact h

/-- Claim C8: specificity law — if sample `A` populates a strict superset of
the fields sample `B` populates and agrees with `B` on every field `B`
populates, then every message matched by the handler with sample `A` is also
matched by the handler with sample `B` (for any transform functions). -/
theorem specificity_law (A B : RMICommand) (fA fB : Option (RMICommand → Option Command))
    (hag : populatesAgrees A B = true) (_hst : populatesStrictlyMore A B = true) :
    ∀ m : RMICommand, (CommandHandler.mk A fA).matches m = true →
      (CommandHandler.mk B fB).matches m = true := by
  intro m hm
  simp only [populatesAgrees, decide_eq_true_eq] at hag
  obtain ⟨h1, h2, h3, h4, h5, _⟩ := hag
  rw [matches_eq_true_iff] at hm ⊢
  obtain ⟨m1, m2, m3, m4, m5⟩ := hm
  exact ⟨usedAndNotEqualStr_mono h1 m1, usedAndNotEqualStr_mono h2 m2,
    usedAndNotEqualStr_mono h3 m3, usedAndNotEqualVec_mono h4 m4,
    usedAndNotEqualStr_mono h5 m5⟩

/-- Witness for claim C8: the PTP/JOINTS sample strictly refines the
PTP-only sample, and the concrete PTP/JOINTS message matched by the former
is matched by the latter. -/
theorem specificity_law_w :
    populatesAgrees samplePTPJoints samplePTP = true ∧
    populatesStrictlyMore samplePTPJoints samplePTP = true ∧
    (CommandHandler.mk samplePTP none).matches msgS1 = true :=
  ⟨by decide, by decide,
    specificity_law samplePTPJoints samplePTP none none (by decide) (by decide)
      msgS1 (by decide)⟩

/-- Claim C9: matching never depends on `command_id` — for any two messages
equal on every field except `command_id`, the match predicate agrees. -/
theorem command_id_noninterference (h : CommandHandler) (m1 m2 : RMICommand)
    (he : m1.command_type = m2.command_type ∧ m1.pose_reference = m2.pose_reference ∧
      m1.pose_type = m2.pose_type ∧ m1.pose = m2.pose ∧
      m1.velocity_type = m2.velocity_type ∧ m1.velocity = m2.velocity ∧
      m1.acceleration_type = m2.acceleration_type ∧ m1.acceleration = m2.acceleration ∧
      m1.blending_type = m2.blending_type ∧ m1.blending = m2.blending ∧
      m1.additional_parameters = m2.additional_parameters) :
    h.matches m1 = h.matches m2 := by
  obtain ⟨e1, e2, e3, e4, e5, _⟩ := he
  unfold CommandHandler.matches
  rw [e1, e2, e3, e4, e5]

/-- Witness for claim C9: `msgS1` and `msgS1id9` differ exactly in
`command_id`, and the PTP handler's match result is the same on both. -/
theorem command_id_noninterference_w :
    msgS1.command_id ≠ msgS1id9.command_id ∧
    hPTPonly.matches msgS1 = hPTPonly.matches msgS1id9 :=
  ⟨by decide, command_id_noninterference hPTPonly msgS1 msgS1id9 (by decide)⟩

/-- Claim C10: frame property of `makeCommand` — with `erase_params = false`
on a non-empty entry list only the first entry is replaced by
`(verb, params)` and the tail is unchanged; with `erase_params = true` the
entries become exactly `[(verb, params)]`. -/
theorem makeCommand_frame :
    (∀ (c : Command) (t : CommandType) (verb params : String), c.full_command_ ≠ [] →
      (c.makeCommand t verb params false).full_command_ =
        (verb, params) :: c.full_command_.tail) ∧
    (∀ (c : Command) (t : CommandType) (verb params : String),
      (c.makeCommand t verb params true).full_command_ = [(verb, params)]) := by
  constructor
  · intro c t verb params hne
    unfold Command.makeCommand
    cases hc : c.full_command_ with
    | nil => exact absurd hc hne
    | cons x xs => simp [hc]
  · intro c t verb params
    unfold Command.makeCommand
    simp

/-- Witness for claim C10: on the two-entry fixture, `makeCommand` without
erasure replaces the head entry and keeps the tail. -/
theorem makeCommand_frame_w :
    cmd2.full_command_ ≠ [] ∧
    (cmd2.makeCommand CommandType.Motion ("lin") ("1 2") false).full_command_ =
      (("lin"), ("1 2")) :: cmd2.full_command_.tail :=
  ⟨by decide, makeCommand_frame.1 cmd2 CommandType.Motion ("lin") ("1 2") (by decide)⟩

end rmi_driver
